import Mathlib

/-!
Verification of the StellarStream payment-streaming contract
(`src/contracts/src/lib.rs`) against its specification.

The contract is a Soroban (Stellar) smart contract.  We shallowly embed the
stream data model, the vesting-unlock engine and the public lifecycle and
governance operations as pure Lean functions and prove the specified
properties about them.

Modelling conventions, applied uniformly:
* `Address` values are natural numbers; only equality of addresses matters.
* `u64` ledger timestamps and durations are `ℕ`; `i128` token amounts are `ℤ`.
  Soroban contracts are compiled with overflow checks, so any wrap of the
  machine arithmetic traps and aborts the transaction; the few places where a
  subtraction could go below zero are noted at the definition concerned.
* A host call either succeeds, returns a typed contract error, or traps
  (panics); a trap rolls the whole transaction back.  `CallResult` mirrors
  the three outcomes and `applyCall` gives the state the ledger keeps.
* The token client is an external collaborator: a transfer moves a balance
  and traps when the payer's balance is insufficient.  The single-stream
  operations do not track balances (their transfers are to or from contract
  custody and are not the subject of any claim); the governance model tracks
  them explicitly because proposal execution must abort when the proposer
  cannot fund the stream.
* Storage get/set on the keyed records is collapsed into explicit state
  passing: a `Stream` value for the lifecycle operations, a `GovState`
  record (proposal list, stream list, receipts, balances, events) for the
  governance operations.
-/

namespace StellarStream

/-- Account / contract identifiers, `soroban_sdk::Address`. -/
abbrev Address := ℕ

/-- `types::CurveType` (types.rs): the shape of the unlock curve. -/
inductive CurveType where
  | Linear : CurveType
  | Exponential : CurveType
deriving DecidableEq

/-- `errors::Error` (errors.rs): the typed error taxonomy of the contract. -/
inductive Error where
  | InvalidTimeRange : Error
  | InvalidAmount : Error
  | InvalidApprovalThreshold : Error
  | ProposalExpired : Error
  | ProposalNotFound : Error
  | ProposalAlreadyExecuted : Error
  | AlreadyApproved : Error
  | StreamNotFound : Error
  | Unauthorized : Error
  | AlreadyCancelled : Error
  | StreamEnded : Error
  | StreamPaused : Error
  | InsufficientBalance : Error
  | StreamIsSoulbound : Error
deriving DecidableEq

/-- Outcome of one contract invocation: success, a typed `Error`, or a trap
(`fault`) such as a division by zero, a checked-arithmetic failure or a
failed token transfer.  Both `err` and `fault` abort the invocation, so the
ledger keeps the pre-call state in those cases. -/
inductive CallResult (α : Type) where
  | ok : α → CallResult α
  | err : Error → CallResult α
  | fault : CallResult α
deriving DecidableEq

/-- The state the ledger keeps after a call: the new state on success, the
pre-call state when the call returned an error or trapped. -/
def applyCall {α : Type} (s : α) : CallResult α → α
  | CallResult.ok s' => s'
  | CallResult.err _ => s
  | CallResult.fault => s

/-- `types::Stream` (types.rs), restricted to the fields that the embedded
operations read or write.  The remaining fields of the source record
(`interest_strategy`, `metadata`, `withdrawn`, `milestones`, the USD-peg and
oracle fields, `clawback_enabled`, `arbiter`, `is_frozen`) are written once
at creation and never read by any of the operations covered by the claims,
so they are omitted from the embedding. -/
structure Stream where
  sender : Address
  receiver : Address
  token : Address
  total_amount : ℤ
  start_time : ℕ
  end_time : ℕ
  withdrawn_amount : ℤ
  vault_address : Option Address
  deposited_principal : ℤ
  cancelled : Bool
  receipt_owner : Address
  is_paused : Bool
  paused_time : ℕ
  total_paused_duration : ℕ
  curve_type : CurveType
  is_soulbound : Bool
deriving DecidableEq

/-- Modelled from the spec: `math::calculate_exponential_unlocked` lives in
`src/contracts/src/math.rs`, which is not part of the sources provided.  The
spec (§4.1) fixes its parameters `(total_amount, adjusted_start, end_time,
adjusted_current)`, that it is overflow-checked (`None` on arithmetic
failure, upon which the caller falls back to the linear formula), and that
the curve is exponential.  We model it as the standard quadratic-in-elapsed
vesting curve `total_amount * elapsed^2 / duration^2` with Rust's truncating
`i128` division, returning `none` exactly when the intermediate product
`total_amount * elapsed * elapsed` leaves the `i128` range. -/
def calculate_exponential_unlocked (total_amount : ℤ)
    (adjusted_start end_time adjusted_current : ℕ) : Option ℤ :=
  if end_time ≤ adjusted_current then some total_amount
  else
    let elapsed : ℤ := (adjusted_current : ℤ) - (adjusted_start : ℤ)
    let duration : ℤ := (end_time : ℤ) - (adjusted_start : ℤ)
    let num : ℤ := total_amount * elapsed * elapsed
    if num < -(2 ^ 127) ∨ 2 ^ 127 - 1 < num then none
    else some (num.tdiv (duration * duration))

/-- `calculate_unlocked` (lib.rs lines 739-781): the vesting engine.  A pure
function of the stream record and the current ledger time.

The source computes `effective_time - stream.start_time` in `u64`; that
subtraction can only go below zero while the stream is paused with
`paused_time < start_time`, where the checked `u64` arithmetic would trap.
We model it with integer subtraction, which then yields a non-positive
`effective_elapsed` and the result `0`.  Rust's truncating `i128` division
is `Int.tdiv`. -/
def calculate_unlocked (stream : Stream) (current_time : ℕ) : ℤ :=
  if current_time ≤ stream.start_time then 0
  else
    let effective_time : ℕ := if stream.is_paused then stream.paused_time else current_time
    let adjusted_end : ℕ := stream.end_time + stream.total_paused_duration
    if adjusted_end ≤ effective_time then stream.total_amount
    else
      let elapsed : ℤ := (effective_time : ℤ) - (stream.start_time : ℤ)
      let paused : ℤ := (stream.total_paused_duration : ℤ)
      let effective_elapsed : ℤ := elapsed - paused
      if effective_elapsed ≤ 0 then 0
      else
        let duration : ℤ := (stream.end_time : ℤ) - (stream.start_time : ℤ)
        match stream.curve_type with
        | CurveType.Linear => (stream.total_amount * effective_elapsed).tdiv duration
        | CurveType.Exponential =>
            let adjusted_start : ℕ := stream.start_time
            let adjusted_current : ℕ := stream.start_time + effective_elapsed.toNat
            (calculate_exponential_unlocked stream.total_amount adjusted_start
                stream.end_time adjusted_current).getD
              ((stream.total_amount * effective_elapsed).tdiv duration)

/-- `create_stream` (lib.rs lines 248-273), which forwards to
`create_stream_with_milestones` with an empty milestone list and no vault,
so only the vault-free arm of that function is reachable from it.  The
token transfer of `total_amount` from the sender into contract custody
traps on failure and is not tracked at the single-stream level.  Returns
the stored stream record. -/
def create_stream (sender receiver token : Address) (total_amount : ℤ)
    (start_time end_time : ℕ) (curve_type : CurveType) (is_soulbound : Bool) :
    CallResult Stream :=
  if end_time ≤ start_time then CallResult.err Error.InvalidTimeRange
  else if total_amount ≤ 0 then CallResult.err Error.InvalidAmount
  else
    CallResult.ok
      { sender := sender, receiver := receiver, token := token,
        total_amount := total_amount, start_time := start_time, end_time := end_time,
        withdrawn_amount := 0, vault_address := none,
        deposited_principal := total_amount, cancelled := false,
        receipt_owner := receiver, is_paused := false, paused_time := 0,
        total_paused_duration := 0, curve_type := curve_type,
        is_soulbound := is_soulbound }

/-- `transfer_receiver` (lib.rs lines 498-532).  The soulbound check comes
first, before the caller-is-sender authorization check and the cancelled
check, exactly as in the source. -/
def transfer_receiver (stream : Stream) (caller new_receiver : Address) :
    CallResult Stream :=
  if stream.is_soulbound then CallResult.err Error.StreamIsSoulbound
  else if stream.sender ≠ caller then CallResult.err Error.Unauthorized
  else if stream.cancelled then CallResult.err Error.AlreadyCancelled
  else CallResult.ok { stream with receiver := new_receiver }

/-- `top_up_stream` (lib.rs lines 535-596).  `total_duration` uses
`saturating_sub`, which is `ℕ` subtraction.  The source divides
`stream.total_amount / total_duration` and then `amount / flow_rate`
without guarding either divisor; an `i128` division by zero panics in Rust,
which we model as `fault`.  (When `total_duration = 0` — unreachable for a
created stream — the source already traps at the first division; our
`Int.tdiv _ 0 = 0` then feeds `flow_rate = 0` into the same `fault` branch,
so the observable outcome agrees.)  The cast `additional_duration as u64`
truncates to the low 64 bits. -/
def top_up_stream (stream : Stream) (now : ℕ) (sender : Address) (amount : ℤ) :
    CallResult Stream :=
  if amount ≤ 0 then CallResult.err Error.InvalidAmount
  else if stream.sender ≠ sender then CallResult.err Error.Unauthorized
  else if stream.cancelled then CallResult.err Error.AlreadyCancelled
  else if stream.end_time ≤ now then CallResult.err Error.StreamEnded
  else
    let total_duration : ℕ := stream.end_time - stream.start_time
    let flow_rate : ℤ := stream.total_amount.tdiv (total_duration : ℤ)
    if flow_rate = 0 then CallResult.fault
    else
      let new_total : ℤ := stream.total_amount + amount
      let additional_duration : ℤ := amount.tdiv flow_rate
      let new_end_time : ℕ := stream.end_time + additional_duration.toNat % 2 ^ 64
      CallResult.ok { stream with total_amount := new_total, end_time := new_end_time }

/-- `pause_stream` (lib.rs lines 598-623): no-op when already paused,
otherwise records the pause instant. -/
def pause_stream (stream : Stream) (now : ℕ) (caller : Address) : CallResult Stream :=
  if stream.sender ≠ caller then CallResult.err Error.Unauthorized
  else if stream.cancelled then CallResult.err Error.AlreadyCancelled
  else if stream.is_paused then CallResult.ok stream
  else CallResult.ok { stream with is_paused := true, paused_time := now }

/-- `unpause_stream` (lib.rs lines 625-654): no-op when not paused,
otherwise accumulates `now - paused_time` into `total_paused_duration` and
clears the pause fields.  The `u64` subtraction cannot underflow because the
ledger clock is monotone, so a recorded `paused_time` never exceeds a later
`now`; `ℕ` subtraction coincides with it there. -/
def unpause_stream (stream : Stream) (now : ℕ) (caller : Address) : CallResult Stream :=
  if stream.sender ≠ caller then CallResult.err Error.Unauthorized
  else if stream.cancelled then CallResult.err Error.AlreadyCancelled
  else if stream.is_paused = false then CallResult.ok stream
  else
    let pause_duration : ℕ := now - stream.paused_time
    CallResult.ok
      { stream with total_paused_duration := stream.total_paused_duration + pause_duration,
                    is_paused := false, paused_time := 0 }

/-- `withdraw` (lib.rs lines 656-696).  On success returns the updated
record and the amount transferred from custody to the receiver. -/
def withdraw (stream : Stream) (now : ℕ) (caller : Address) :
    CallResult (Stream × ℤ) :=
  if stream.receiver ≠ caller then CallResult.err Error.Unauthorized
  else if stream.cancelled then CallResult.err Error.AlreadyCancelled
  else if stream.is_paused then CallResult.err Error.StreamPaused
  else
    let unlocked : ℤ := calculate_unlocked stream now
    let to_withdraw : ℤ := unlocked - stream.withdrawn_amount
    if to_withdraw ≤ 0 then CallResult.err Error.InsufficientBalance
    else
      CallResult.ok
        ({ stream with withdrawn_amount := stream.withdrawn_amount + to_withdraw },
         to_withdraw)

/-- `cancel` (lib.rs lines 698-737).  On success returns the updated record
together with the settlement pair `(to_receiver, to_sender)` computed by the
source; the source then transfers each component from custody exactly when
it is positive. -/
def cancel (stream : Stream) (now : ℕ) (caller : Address) :
    CallResult (Stream × ℤ × ℤ) :=
  if stream.sender ≠ caller ∧ stream.receiver ≠ caller then
    CallResult.err Error.Unauthorized
  else if stream.cancelled then CallResult.err Error.AlreadyCancelled
  else
    let unlocked : ℤ := calculate_unlocked stream now
    let to_receiver : ℤ := unlocked - stream.withdrawn_amount
    let to_sender : ℤ := stream.total_amount - unlocked
    CallResult.ok
      ({ stream with cancelled := true, withdrawn_amount := unlocked },
       to_receiver, to_sender)

/-- `types::StreamProposal` (types.rs): a pending funding request. -/
structure StreamProposal where
  sender : Address
  receiver : Address
  token : Address
  total_amount : ℤ
  start_time : ℕ
  end_time : ℕ
  approvers : List Address
  required_approvals : ℕ
  deadline : ℕ
  executed : Bool
deriving DecidableEq

/-- `types::StreamReceipt` (types.rs): minted once per stream at creation. -/
structure StreamReceipt where
  stream_id : ℕ
  owner : Address
  minted_at : ℕ
deriving DecidableEq

/-- The events published on the governance path that the claims observe
(`StreamCreatedEvent` and `ProposalApprovedEvent` in types.rs). -/
inductive GovEvent where
  | streamCreated (stream_id : ℕ) (sender receiver token : Address)
      (total_amount : ℤ) (start_time end_time timestamp : ℕ) : GovEvent
  | proposalApproved (proposal_id : ℕ) (approver : Address)
      (approval_count required_approvals timestamp : ℕ) : GovEvent
deriving DecidableEq

/-- Token balances of the one asset a proposal is denominated in, as a
finite association list (absent addresses hold 0). -/
abbrev Balances : Type := List (Address × ℤ)

/-- The balance of `a` under `b`. -/
def getBal : Balances → Address → ℤ
  | [], _ => 0
  | x :: xs, a => if x.1 = a then x.2 else getBal xs a

/-- Overwrite the balance of `a` in `b`. -/
def setBal : Balances → Address → ℤ → Balances
  | [], a, v => [(a, v)]
  | x :: xs, a, v => if x.1 = a then (a, v) :: xs else x :: setBal xs a v

/-- Modelled from the spec: the fungible-asset transfer primitive is an
external collaborator, specified only at its interface (§1): it "moves a
fixed-point balance from one account to another and fails if the payer's
balance is insufficient".  A failed transfer through the non-`try` token
client traps the whole invocation, hence the `Option`: `none` is the trap.
A negative amount is likewise rejected by the token contract. -/
def token_transfer (b : Balances) (src dst : Address) (amount : ℤ) :
    Option Balances :=
  if amount < 0 then none
  else if getBal b src < amount then none
  else
    let b1 := setBal b src (getBal b src - amount)
    some (setBal b1 dst (getBal b1 dst + amount))

/-- The governance-visible contract state: the proposal store keyed by the
sequential proposal id (list position), the stream store keyed by the
sequential stream id (list position, so the next id is the list length,
matching the `STREAM_COUNT` counter), the minted receipts, the token
balances, and the published events. -/
structure GovState where
  proposals : List StreamProposal
  streams : List Stream
  receipts : List StreamReceipt
  balances : Balances
  events : List GovEvent
deriving DecidableEq

/-- The `Stream` record that `execute_proposal` (lib.rs lines 187-217)
allocates for an approved proposal, with its hard-coded pause/curve/vault
defaults. -/
def proposal_stream (proposal : StreamProposal) : Stream :=
  { sender := proposal.sender, receiver := proposal.receiver,
    token := proposal.token, total_amount := proposal.total_amount,
    start_time := proposal.start_time, end_time := proposal.end_time,
    withdrawn_amount := 0, vault_address := none,
    deposited_principal := proposal.total_amount, cancelled := false,
    receipt_owner := proposal.receiver, is_paused := false, paused_time := 0,
    total_paused_duration := 0, curve_type := CurveType.Linear,
    is_soulbound := false }

/-- `execute_proposal` (lib.rs lines 174-241): transfers `total_amount` from
the original proposer into contract custody (trapping, and thereby aborting
the whole call, when the proposer cannot fund it), allocates the next stream
id, stores the new stream record, emits the creation event and mints the
receipt for the receiver. -/
def execute_proposal (contract : Address) (now : ℕ) (proposal : StreamProposal)
    (g : GovState) : CallResult (GovState × ℕ) :=
  match token_transfer g.balances proposal.sender contract proposal.total_amount with
  | none => CallResult.fault
  | some balances' =>
    let stream_id : ℕ := g.streams.length
    CallResult.ok
      ({ g with
          balances := balances',
          streams := g.streams ++ [proposal_stream proposal],
          events := g.events ++
            [GovEvent.streamCreated stream_id proposal.sender proposal.receiver
              proposal.token proposal.total_amount proposal.start_time
              proposal.end_time now],
          receipts := g.receipts ++
            [{ stream_id := stream_id, owner := proposal.receiver, minted_at := now }] },
       stream_id)

/-- `approve_proposal` (lib.rs lines 125-172): rejects an executed or
expired proposal and duplicate approvers, appends the approver, and when the
threshold is met marks the proposal executed, persists it, and immediately
executes it; the approval event is published after execution.  An error or
trap from execution aborts the whole call. -/
def approve_proposal (contract : Address) (now : ℕ) (g : GovState)
    (proposal_id : ℕ) (approver : Address) : CallResult GovState :=
  match g.proposals[proposal_id]? with
  | none => CallResult.err Error.ProposalNotFound
  | some proposal =>
    if proposal.executed then CallResult.err Error.ProposalAlreadyExecuted
    else if proposal.deadline < now then CallResult.err Error.ProposalExpired
    else if approver ∈ proposal.approvers then CallResult.err Error.AlreadyApproved
    else
      let proposal' := { proposal with approvers := proposal.approvers ++ [approver] }
      let approval_count : ℕ := proposal'.approvers.length
      if proposal'.required_approvals ≤ approval_count then
        let executed_proposal := { proposal' with executed := true }
        let g1 := { g with proposals := g.proposals.set proposal_id executed_proposal }
        match execute_proposal contract now executed_proposal g1 with
        | CallResult.ok (g2, _) =>
            CallResult.ok
              { g2 with events := g2.events ++
                  [GovEvent.proposalApproved proposal_id approver approval_count
                    proposal.required_approvals now] }
        | CallResult.err e => CallResult.err e
        | CallResult.fault => CallResult.fault
      else
        CallResult.ok
          { g with
              proposals := g.proposals.set proposal_id proposal',
              events := g.events ++
                [GovEvent.proposalApproved proposal_id approver approval_count
                  proposal.required_approvals now] }

/-! ### Decomposition of the vesting engine, for the proofs -/

/-- The curve dispatch at the end of `calculate_unlocked`, as a function of
the stream and the (positive) `effective_elapsed`. -/
def curve_value (s : Stream) (effective_elapsed : ℤ) : ℤ :=
  let duration : ℤ := (s.end_time : ℤ) - (s.start_time : ℤ)
  match s.curve_type with
  | CurveType.Linear => (s.total_amount * effective_elapsed).tdiv duration
  | CurveType.Exponential =>
      (calculate_exponential_unlocked s.total_amount s.start_time s.end_time
          (s.start_time + effective_elapsed.toNat)).getD
        ((s.total_amount * effective_elapsed).tdiv duration)

/-- The body of `calculate_unlocked` past the `start_time` guard, as a
function of the effective time. -/
def vest_at (s : Stream) (effective_time : ℕ) : ℤ :=
  if s.end_time + s.total_paused_duration ≤ effective_time then s.total_amount
  else
    let effective_elapsed : ℤ :=
      ((effective_time : ℤ) - (s.start_time : ℤ)) - (s.total_paused_duration : ℤ)
    if effective_elapsed ≤ 0 then 0
    else curve_value s effective_elapsed

theorem calculate_unlocked_eq (s : Stream) (t : ℕ) :
    calculate_unlocked s t =
      if t ≤ s.start_time then 0
      else vest_at s (if s.is_paused then s.paused_time else t) := rfl

/-! ### Facts about Rust's truncating division on the relevant sign regime -/

theorem tdiv_nonneg_of {a b : ℤ} (ha : 0 ≤ a) (hb : 0 ≤ b) : 0 ≤ a.tdiv b := by
  rw [Int.tdiv_eq_ediv ha hb]
  exact Int.ediv_nonneg ha hb

theorem tdiv_le_tdiv_right {a b c : ℤ} (hc : 0 < c) (ha : 0 ≤ a) (h : a ≤ b) :
    a.tdiv c ≤ b.tdiv c := by
  rw [Int.tdiv_eq_ediv ha hc.le, Int.tdiv_eq_ediv (ha.trans h) hc.le]
  exact Int.ediv_le_ediv hc h

theorem mul_tdiv_le_of_le {T e D : ℤ} (hT : 0 < T) (he : 0 ≤ e) (hD : 0 < D)
    (h : e ≤ D) : (T * e).tdiv D ≤ T := by
  have h1 : (T * e).tdiv D ≤ (T * D).tdiv D :=
    tdiv_le_tdiv_right hD (by positivity) (by nlinarith)
  have h2 : (T * D).tdiv D = T := by
    rw [Int.tdiv_eq_ediv (by positivity) hD.le]
    exact Int.mul_ediv_cancel T hD.ne'
  rw [h2] at h1
  exact h1

theorem sq_tdiv_le_linear {T e D : ℤ} (hT : 0 < T) (he : 0 < e) (heD : e ≤ D) :
    (T * e * e).tdiv (D * D) ≤ (T * e).tdiv D := by
  have hD : 0 < D := lt_of_lt_of_le he heD
  have h1 : (T * e * e).tdiv (D * D) ≤ (D * (T * e)).tdiv (D * D) :=
    tdiv_le_tdiv_right (by positivity) (by positivity)
      (by nlinarith [mul_le_mul_of_nonneg_left heD (mul_pos hT he).le])
  have h2 : (D * (T * e)).tdiv (D * D) = (T * e).tdiv D := by
    rw [Int.tdiv_eq_ediv (by positivity) (by positivity),
        Int.tdiv_eq_ediv (by positivity) hD.le]
    exact Int.mul_ediv_mul_of_pos _ _ hD
  rw [h2] at h1
  exact h1

/-! ### Bounds and monotonicity of the curve dispatch -/

theorem curve_value_nonneg {s : Stream} (hT : 0 < s.total_amount)
    (hse : s.start_time < s.end_time) {e : ℤ} (he : 0 < e) :
    0 ≤ curve_value s e := by
  have hD : (0:ℤ) < (s.end_time : ℤ) - (s.start_time : ℤ) := by omega
  cases hcv : s.curve_type with
  | Linear =>
      simp only [curve_value, hcv]
      exact tdiv_nonneg_of (by positivity) hD.le
  | Exponential =>
      simp only [curve_value, hcv, calculate_exponential_unlocked]
      split_ifs with h1 h2
      · simpa using hT.le
      · simpa using tdiv_nonneg_of (by positivity) hD.le
      · simp only [Option.getD_some]
        have hs : (0:ℤ) ≤ ((s.start_time + e.toNat : ℕ) : ℤ) - (s.start_time : ℤ) := by
          push_cast
          omega
        exact tdiv_nonneg_of (mul_nonneg (mul_nonneg hT.le hs) hs) (mul_self_nonneg _)

theorem curve_value_le_total {s : Stream} (hT : 0 < s.total_amount)
    (hse : s.start_time < s.end_time) {e : ℤ} (he : 0 < e)
    (hlt : e < (s.end_time : ℤ) - (s.start_time : ℤ)) :
    curve_value s e ≤ s.total_amount := by
  have hD : (0:ℤ) < (s.end_time : ℤ) - (s.start_time : ℤ) := lt_trans he hlt
  have hcast : ((e.toNat : ℤ)) = e := Int.toNat_of_nonneg he.le
  cases hcv : s.curve_type with
  | Linear =>
      simp only [curve_value, hcv]
      exact mul_tdiv_le_of_le hT he.le hD hlt.le
  | Exponential =>
      simp only [curve_value, hcv, calculate_exponential_unlocked]
      have hnotend : ¬ (s.end_time ≤ s.start_time + e.toNat) := by omega
      rw [if_neg hnotend]
      have hsub : ((s.start_time + e.toNat : ℕ) : ℤ) - (s.start_time : ℤ) = e := by
        push_cast
        omega
      rw [hsub]
      split_ifs with hovf
      · simp only [Option.getD_none]
        exact mul_tdiv_le_of_le hT he.le hD hlt.le
      · simp only [Option.getD_some]
        rw [mul_assoc]
        exact mul_tdiv_le_of_le hT (by positivity) (by positivity) (by nlinarith)

theorem curve_value_mono {s : Stream} (hT : 0 < s.total_amount)
    (hse : s.start_time < s.end_time) {e1 e2 : ℤ} (he1 : 0 < e1)
    (h12 : e1 ≤ e2) (h2 : e2 < (s.end_time : ℤ) - (s.start_time : ℤ)) :
    curve_value s e1 ≤ curve_value s e2 := by
  have he2 : 0 < e2 := lt_of_lt_of_le he1 h12
  have hD : (0:ℤ) < (s.end_time : ℤ) - (s.start_time : ℤ) := lt_trans he2 h2
  have hlin : (s.total_amount * e1).tdiv ((s.end_time : ℤ) - (s.start_time : ℤ)) ≤
      (s.total_amount * e2).tdiv ((s.end_time : ℤ) - (s.start_time : ℤ)) :=
    tdiv_le_tdiv_right hD (by positivity) (mul_le_mul_of_nonneg_left h12 hT.le)
  cases hcv : s.curve_type with
  | Linear => simpa only [curve_value, hcv] using hlin
  | Exponential =>
      simp only [curve_value, hcv, calculate_exponential_unlocked]
      have hn1 : ¬ (s.end_time ≤ s.start_time + e1.toNat) := by
        have := Int.toNat_of_nonneg he1.le
        omega
      have hn2 : ¬ (s.end_time ≤ s.start_time + e2.toNat) := by
        have := Int.toNat_of_nonneg he2.le
        omega
      have hs1 : ((s.start_time + e1.toNat : ℕ) : ℤ) - (s.start_time : ℤ) = e1 := by
        have := Int.toNat_of_nonneg he1.le
        push_cast
        omega
      have hs2 : ((s.start_time + e2.toNat : ℕ) : ℤ) - (s.start_time : ℤ) = e2 := by
        have := Int.toNat_of_nonneg he2.le
        push_cast
        omega
      rw [if_neg hn1, if_neg hn2, hs1, hs2]
      have hN1 : (0:ℤ) < s.total_amount * e1 * e1 := by positivity
      have hNle : s.total_amount * e1 * e1 ≤ s.total_amount * e2 * e2 :=
        le_trans (mul_le_mul_of_nonneg_left h12 (by positivity))
          (mul_le_mul_of_nonneg_right (mul_le_mul_of_nonneg_left h12 hT.le) he2.le)
      by_cases ho1 : s.total_amount * e1 * e1 < -(2 ^ 127) ∨
          2 ^ 127 - 1 < s.total_amount * e1 * e1
      · have ho1' : (2:ℤ) ^ 127 - 1 < s.total_amount * e1 * e1 := by
          rcases ho1 with h | h
          · linarith
          · exact h
        have ho2 : s.total_amount * e2 * e2 < -(2 ^ 127) ∨
            2 ^ 127 - 1 < s.total_amount * e2 * e2 :=
          Or.inr (lt_of_lt_of_le ho1' hNle)
        rw [if_pos ho1, if_pos ho2]
        simpa using hlin
      · rw [if_neg ho1]
        by_cases ho2 : s.total_amount * e2 * e2 < -(2 ^ 127) ∨
            2 ^ 127 - 1 < s.total_amount * e2 * e2
        · rw [if_pos ho2]
          simp only [Option.getD_some, Option.getD_none]
          exact le_trans (sq_tdiv_le_linear hT he1 (le_trans h12 h2.le)) hlin
        · rw [if_neg ho2]
          simp only [Option.getD_some]
          exact tdiv_le_tdiv_right (by positivity) hN1.le hNle

/-! ### Bounds and monotonicity of the vesting body -/

theorem vest_at_nonneg {s : Stream} (hT : 0 < s.total_amount)
    (hse : s.start_time < s.end_time) (e : ℕ) : 0 ≤ vest_at s e := by
  simp only [vest_at]
  split_ifs with h1 h2
  · exact hT.le
  · exact le_rfl
  · exact curve_value_nonneg hT hse (not_le.mp h2)

theorem vest_at_le_total {s : Stream} (hT : 0 < s.total_amount)
    (hse : s.start_time < s.end_time) (e : ℕ) : vest_at s e ≤ s.total_amount := by
  simp only [vest_at]
  split_ifs with h1 h2
  · exact le_rfl
  · exact hT.le
  · exact curve_value_le_total hT hse (not_le.mp h2) (by omega)

theorem vest_at_mono {s : Stream} (hT : 0 < s.total_amount)
    (hse : s.start_time < s.end_time) {e1 e2 : ℕ} (h : e1 ≤ e2) :
    vest_at s e1 ≤ vest_at s e2 := by
  by_cases hc2 : s.end_time + s.total_paused_duration ≤ e2
  · have hR : vest_at s e2 = s.total_amount := by
      simp only [vest_at]
      rw [if_pos hc2]
    rw [hR]
    exact vest_at_le_total hT hse e1
  · have hc1 : ¬ (s.end_time + s.total_paused_duration ≤ e1) := by omega
    simp only [vest_at]
    rw [if_neg hc1, if_neg hc2]
    by_cases he1 : ((e1 : ℤ) - (s.start_time : ℤ) - (s.total_paused_duration : ℤ) ≤ 0)
    · rw [if_pos he1]
      split_ifs with he2
      · exact le_rfl
      · exact curve_value_nonneg hT hse (not_le.mp he2)
    · have he2 : ¬ ((e2 : ℤ) - (s.start_time : ℤ) - (s.total_paused_duration : ℤ) ≤ 0) := by
        omega
      rw [if_neg he1, if_neg he2]
      exact curve_value_mono hT hse (not_le.mp he1) (by omega) (by omega)

/-! ### Concrete streams used by the evaluation theorems -/

set_option maxRecDepth 8000

/-- A stream record as `create_stream` stores it: nothing withdrawn, no
pause history, not cancelled, not soulbound, no vault. -/
def fresh_stream (sender receiver token : Address) (total : ℤ)
    (start_t end_t : ℕ) (curve : CurveType) : Stream :=
  { sender := sender, receiver := receiver, token := token,
    total_amount := total, start_time := start_t, end_time := end_t,
    withdrawn_amount := 0, vault_address := none,
    deposited_principal := total, cancelled := false,
    receipt_owner := receiver, is_paused := false, paused_time := 0,
    total_paused_duration := 0, curve_type := curve, is_soulbound := false }

/-- `fresh_stream` with sender 1, receiver 2, token 3. -/
def demo_stream (total : ℤ) (start_t end_t : ℕ) (curve : CurveType) : Stream :=
  fresh_stream 1 2 3 total start_t end_t curve

/-! ### Claim theorems on the stream lifecycle -/

/-- Claim C1: for every stream that is not yet cancelled, a successful
`cancel` called by the stream's sender or receiver settles the receiver at
exactly `unlocked(stream, now) - withdrawn_amount` and the sender at exactly
`total_amount - unlocked(stream, now)`, the two payouts sum to
`total_amount - withdrawn_amount_before_cancel`, and the stored record gets
`cancelled = true` and `withdrawn_amount = unlocked(stream, now)`. -/
theorem cancel_settles_both_parties (s : Stream) (now : ℕ) (caller : Address)
    (hc : s.cancelled = false) (hauth : caller = s.sender ∨ caller = s.receiver) :
    cancel s now caller =
      CallResult.ok
        ({ s with cancelled := true, withdrawn_amount := calculate_unlocked s now },
         calculate_unlocked s now - s.withdrawn_amount,
         s.total_amount - calculate_unlocked s now) ∧
    (calculate_unlocked s now - s.withdrawn_amount) +
        (s.total_amount - calculate_unlocked s now) =
      s.total_amount - s.withdrawn_amount := by
  constructor
  · have h1 : ¬ (s.sender ≠ caller ∧ s.receiver ≠ caller) := by
      rcases hauth with h | h <;> simp [h]
    simp only [cancel]
    rw [if_neg h1, if_neg (by simp [hc])]
  · ring

/-- Witness for C1: cancelling the linear demo stream at its halfway point
pays the receiver 500 and refunds the sender 500. -/
theorem cancel_settles_both_parties_witness :
    (demo_stream 1000 0 100 CurveType.Linear).cancelled = false ∧
    ((1 : Address) = (demo_stream 1000 0 100 CurveType.Linear).sender ∨
      (1 : Address) = (demo_stream 1000 0 100 CurveType.Linear).receiver) ∧
    cancel (demo_stream 1000 0 100 CurveType.Linear) 50 1 =
      CallResult.ok
        ({ demo_stream 1000 0 100 CurveType.Linear with
            cancelled := true,
            withdrawn_amount :=
              calculate_unlocked (demo_stream 1000 0 100 CurveType.Linear) 50 },
         calculate_unlocked (demo_stream 1000 0 100 CurveType.Linear) 50 - 0,
         1000 - calculate_unlocked (demo_stream 1000 0 100 CurveType.Linear) 50) :=
  ⟨by decide, Or.inl (by decide),
    (cancel_settles_both_parties (demo_stream 1000 0 100 CurveType.Linear) 50 1
      (by decide) (Or.inl (by decide))).1⟩

/-- Claim C3, counterexample: the claim quantifies over every stream, but
for a stream that is currently paused the effective time is frozen at
`paused_time`, so evaluating at `end_time + total_paused_duration` does not
yield full vesting.  The stream below is reached from a freshly created
stream by `pause_stream` at time 50. -/
theorem unlocked_at_adjusted_end_counterexample :
    create_stream 1 2 3 1000 0 100 CurveType.Linear false =
        CallResult.ok (demo_stream 1000 0 100 CurveType.Linear) ∧
    pause_stream (demo_stream 1000 0 100 CurveType.Linear) 50 1 =
        CallResult.ok
          { demo_stream 1000 0 100 CurveType.Linear with
              is_paused := true, paused_time := 50 } ∧
    calculate_unlocked
        { demo_stream 1000 0 100 CurveType.Linear with
            is_paused := true, paused_time := 50 }
        ({ demo_stream 1000 0 100 CurveType.Linear with
            is_paused := true, paused_time := 50 }.end_time +
          { demo_stream 1000 0 100 CurveType.Linear with
              is_paused := true, paused_time := 50 }.total_paused_duration) = 500 ∧
    ({ demo_stream 1000 0 100 CurveType.Linear with
        is_paused := true, paused_time := 50 }.total_amount : ℤ) = 1000 := by
  decide

/-- Claim C3 (amended): for every stream with `start_time < end_time` that
is not currently paused, `unlocked(stream, end_time + total_paused_duration)`
equals `total_amount`, for every curve type. -/
theorem unlocked_at_adjusted_end (s : Stream) (hse : s.start_time < s.end_time)
    (hp : s.is_paused = false) :
    calculate_unlocked s (s.end_time + s.total_paused_duration) = s.total_amount := by
  rw [calculate_unlocked_eq, if_neg (by omega), hp]
  simp only [Bool.false_eq_true, if_false, vest_at]
  rw [if_pos le_rfl]

/-- Witness for C3 (amended), on an exponential-curve stream with a pause
history. -/
theorem unlocked_at_adjusted_end_witness :
    ({ demo_stream 1000 0 100 CurveType.Exponential with
        total_paused_duration := 7 } : Stream).start_time <
      ({ demo_stream 1000 0 100 CurveType.Exponential with
          total_paused_duration := 7 } : Stream).end_time ∧
    ({ demo_stream 1000 0 100 CurveType.Exponential with
        total_paused_duration := 7 } : Stream).is_paused = false ∧
    calculate_unlocked
        { demo_stream 1000 0 100 CurveType.Exponential with
            total_paused_duration := 7 } (100 + 7) = 1000 :=
  ⟨by decide, by decide,
    unlocked_at_adjusted_end
      { demo_stream 1000 0 100 CurveType.Exponential with total_paused_duration := 7 }
      (by decide) (by decide)⟩

/-- Claim C4: for every valid fixed stream state (`total_amount > 0` and
`start_time < end_time`, all fields including the pause fields held
constant) and all times `t1 ≤ t2`,
`unlocked(stream, t1) ≤ unlocked(stream, t2)`.  `calculate_unlocked` is a
pure function of the stream record and the time by construction: the source
takes `&Stream` and a timestamp and performs no storage access or side
effect. -/
theorem calculate_unlocked_monotone (s : Stream) (hT : 0 < s.total_amount)
    (hse : s.start_time < s.end_time) (t1 t2 : ℕ) (h12 : t1 ≤ t2) :
    calculate_unlocked s t1 ≤ calculate_unlocked s t2 := by
  rw [calculate_unlocked_eq, calculate_unlocked_eq]
  by_cases h1 : t1 ≤ s.start_time
  · rw [if_pos h1]
    by_cases h2 : t2 ≤ s.start_time
    · rw [if_pos h2]
    · rw [if_neg h2]
      exact vest_at_nonneg hT hse _
  · have h2 : ¬ (t2 ≤ s.start_time) := by omega
    rw [if_neg h1, if_neg h2]
    cases hp : s.is_paused with
    | false =>
        simp only [hp, Bool.false_eq_true, if_false]
        exact vest_at_mono hT hse h12
    | true => simp [hp]

/-- Witness for C4 on an exponential stream, exercising the curve branch. -/
theorem calculate_unlocked_monotone_witness :
    0 < (demo_stream 1000 0 100 CurveType.Exponential).total_amount ∧
    (demo_stream 1000 0 100 CurveType.Exponential).start_time <
      (demo_stream 1000 0 100 CurveType.Exponential).end_time ∧
    (30 : ℕ) ≤ 60 ∧
    calculate_unlocked (demo_stream 1000 0 100 CurveType.Exponential) 30 ≤
      calculate_unlocked (demo_stream 1000 0 100 CurveType.Exponential) 60 :=
  ⟨by decide, by decide, by decide,
    calculate_unlocked_monotone (demo_stream 1000 0 100 CurveType.Exponential)
      (by decide) (by decide) 30 60 (by decide)⟩

/-- Claim C5: on a Linear stream with `start_time = 0`, pausing at time 20
and unpausing at time 30 leaves `total_paused_duration = 10` and
`is_paused = false`, and the unlock at time 70 equals the linear unlock the
unpaused stream would have at time 60, i.e.
`total_amount * 60 / (end_time - start_time)`. -/
theorem pause_shifts_linear_unlock (sender receiver token : Address)
    (total : ℤ) (en : ℕ) (hT : 0 < total) (hen : 60 ≤ en) :
    create_stream sender receiver token total 0 en CurveType.Linear false =
      CallResult.ok (fresh_stream sender receiver token total 0 en CurveType.Linear) ∧
    pause_stream (fresh_stream sender receiver token total 0 en CurveType.Linear)
        20 sender =
      CallResult.ok
        { fresh_stream sender receiver token total 0 en CurveType.Linear with
            is_paused := true, paused_time := 20 } ∧
    unpause_stream
        { fresh_stream sender receiver token total 0 en CurveType.Linear with
            is_paused := true, paused_time := 20 } 30 sender =
      CallResult.ok
        { fresh_stream sender receiver token total 0 en CurveType.Linear with
            total_paused_duration := 10 } ∧
    calculate_unlocked
        { fresh_stream sender receiver token total 0 en CurveType.Linear with
            total_paused_duration := 10 } 70 = (total * 60).tdiv ((en : ℤ) - 0) ∧
    calculate_unlocked
        { fresh_stream sender receiver token total 0 en CurveType.Linear with
            total_paused_duration := 10 } 70 =
      calculate_unlocked (fresh_stream sender receiver token total 0 en CurveType.Linear)
        60 := by
  refine ⟨?_, ?_, ?_, ?_, ?_⟩
  · simp only [create_stream]
    rw [if_neg (by omega), if_neg (by omega)]
    rfl
  · simp only [pause_stream]
    rw [if_neg (by simp [fresh_stream]), if_neg (by simp [fresh_stream]),
      if_neg (by simp [fresh_stream])]
  · simp only [unpause_stream]
    rw [if_neg (by simp [fresh_stream]), if_neg (by simp [fresh_stream]),
      if_neg (by simp [fresh_stream])]
    rfl
  · rw [calculate_unlocked_eq, if_neg (by simp [fresh_stream])]
    show vest_at _ 70 = _
    simp only [vest_at, fresh_stream]
    split_ifs with hA hB
    · have h60 : en = 60 := by omega
      subst h60
      rw [show ((60 : ℕ) : ℤ) - 0 = 60 by norm_num,
        Int.tdiv_eq_ediv (by positivity) (by norm_num)]
      exact (Int.mul_ediv_cancel total (by norm_num)).symm
    · exfalso
      omega
    · simp only [curve_value]
      norm_num
  · rw [calculate_unlocked_eq, calculate_unlocked_eq,
      if_neg (by simp [fresh_stream]), if_neg (by simp [fresh_stream])]
    show vest_at _ 70 = vest_at _ 60
    simp only [vest_at, fresh_stream]
    split_ifs with hA hB hC hD hE
    all_goals try rfl
    all_goals try (exfalso; omega)

/-- Witness for C5 with `total_amount = 1000`, `end_time = 100`: the unlock
at time 70 is 600, the unpaused stream's value at time 60. -/
theorem pause_shifts_linear_unlock_witness :
    0 < (1000 : ℤ) ∧ (60 : ℕ) ≤ 100 ∧
    calculate_unlocked
        { fresh_stream 1 2 3 1000 0 100 CurveType.Linear with
            total_paused_duration := 10 } 70 = ((1000 : ℤ) * 60).tdiv (((100 : ℕ) : ℤ) - 0) ∧
    calculate_unlocked
        { fresh_stream 1 2 3 1000 0 100 CurveType.Linear with
            total_paused_duration := 10 } 70 =
      calculate_unlocked (fresh_stream 1 2 3 1000 0 100 CurveType.Linear) 60 :=
  ⟨by decide, by decide,
    (pause_shifts_linear_unlock 1 2 3 1000 100 (by decide) (by decide)).2.2.2.1,
    (pause_shifts_linear_unlock 1 2 3 1000 100 (by decide) (by decide)).2.2.2.2⟩

/-- Claim C9: for every stream with `is_soulbound = true`, `transfer_receiver`
fails with `StreamIsSoulbound` for every caller (the soulbound check precedes
the authorization and cancelled checks), and the stored record is unchanged. -/
theorem soulbound_transfer_receiver_rejected (s : Stream)
    (caller new_receiver : Address) (hsb : s.is_soulbound = true) :
    transfer_receiver s caller new_receiver = CallResult.err Error.StreamIsSoulbound ∧
    applyCall s (transfer_receiver s caller new_receiver) = s := by
  have h : transfer_receiver s caller new_receiver =
      CallResult.err Error.StreamIsSoulbound := by
    simp only [transfer_receiver]
    rw [if_pos hsb]
  exact ⟨h, by rw [h]; rfl⟩

/-- Witness for C9, with the caller being the stream's own sender. -/
theorem soulbound_transfer_receiver_rejected_witness :
    ({ demo_stream 1000 0 100 CurveType.Linear with is_soulbound := true } : Stream).is_soulbound = true ∧
    transfer_receiver { demo_stream 1000 0 100 CurveType.Linear with is_soulbound := true } 1 9 =
      CallResult.err Error.StreamIsSoulbound ∧
    applyCall { demo_stream 1000 0 100 CurveType.Linear with is_soulbound := true }
        (transfer_receiver { demo_stream 1000 0 100 CurveType.Linear with is_soulbound := true } 1 9) =
      { demo_stream 1000 0 100 CurveType.Linear with is_soulbound := true } :=
  ⟨rfl,
    (soulbound_transfer_receiver_rejected
      { demo_stream 1000 0 100 CurveType.Linear with is_soulbound := true } 1 9 rfl).1,
    (soulbound_transfer_receiver_rejected
      { demo_stream 1000 0 100 CurveType.Linear with is_soulbound := true } 1 9 rfl).2⟩

/-- Claim C2, evaluation at the failing input: starting from the freshly
created stream `(total 5, [0,3), Linear)`, the receiver withdraws 3 at time
2 (the full unlocked amount), then the sender tops up 100 at time 2; the
truncated flow rate (`5 tdiv 3 = 1`) stretches `end_time` to 103, after
which `unlocked(stream, 2) = 2 < withdrawn_amount = 3`, violating the
claimed invariant at a reachable state and a time occurring in the
sequence. -/
theorem withdrawn_exceeds_unlocked_after_topup :
    create_stream 1 2 3 5 0 3 CurveType.Linear false =
        CallResult.ok (demo_stream 5 0 3 CurveType.Linear) ∧
    withdraw (demo_stream 5 0 3 CurveType.Linear) 2 2 =
        CallResult.ok
          ({ demo_stream 5 0 3 CurveType.Linear with withdrawn_amount := 3 }, 3) ∧
    top_up_stream { demo_stream 5 0 3 CurveType.Linear with withdrawn_amount := 3 }
        2 1 100 =
      CallResult.ok
        { demo_stream 5 0 3 CurveType.Linear with
            withdrawn_amount := 3, total_amount := 105, end_time := 103 } ∧
    calculate_unlocked
        { demo_stream 5 0 3 CurveType.Linear with
            withdrawn_amount := 3, total_amount := 105, end_time := 103 } 2 = 2 ∧
    ¬ ({ demo_stream 5 0 3 CurveType.Linear with
          withdrawn_amount := 3, total_amount := 105, end_time := 103 }.withdrawn_amount ≤
        calculate_unlocked
          { demo_stream 5 0 3 CurveType.Linear with
              withdrawn_amount := 3, total_amount := 105, end_time := 103 } 2) := by
  decide

/-- Claim C6, evaluation at the failing input: on the freshly created stream
`(total 5, [0,10), Linear)` the implied flow rate `5 tdiv 10` is zero, and
`top_up_stream` of amount 1 at time 1 reaches the division
`amount / flow_rate` with `flow_rate = 0`, an arithmetic fault (trap), not a
typed error. -/
theorem topup_zero_flow_rate_faults :
    create_stream 1 2 3 5 0 10 CurveType.Linear false =
        CallResult.ok (demo_stream 5 0 10 CurveType.Linear) ∧
    top_up_stream (demo_stream 5 0 10 CurveType.Linear) 1 1 1 = CallResult.fault := by
  decide

/-! ### Facts about the balance store -/

theorem getBal_setBal_same (b : Balances) (a : Address) (v : ℤ) :
    getBal (setBal b a v) a = v := by
  induction b with
  | nil => simp [setBal, getBal]
  | cons x xs ih =>
      by_cases h : x.1 = a
      · simp [setBal, getBal, h]
      · simp [setBal, getBal, h, ih]

theorem getBal_setBal_other (b : Balances) (a a' : Address) (v : ℤ)
    (h : a ≠ a') : getBal (setBal b a v) a' = getBal b a' := by
  induction b with
  | nil => simp [setBal, getBal, h]
  | cons x xs ih =>
      by_cases hx : x.1 = a
      · simp only [setBal, if_pos hx, getBal, if_neg h, if_neg (hx ▸ h)]
      · simp only [setBal, if_neg hx, getBal]
        split_ifs with hx'
        · rfl
        · exact ih

theorem token_transfer_spec (b : Balances) (src dst : Address) (amount : ℤ)
    (h0 : 0 ≤ amount) (hb : amount ≤ getBal b src) (hne : src ≠ dst) :
    token_transfer b src dst amount =
      some (setBal (setBal b src (getBal b src - amount)) dst
        (getBal b dst + amount)) := by
  simp only [token_transfer]
  rw [if_neg (by omega), if_neg (by omega),
    getBal_setBal_other b src dst _ hne]

theorem token_transfer_isSome (b : Balances) (src dst : Address) (amount : ℤ)
    (h0 : 0 ≤ amount) (hb : amount ≤ getBal b src) :
    ∃ b', token_transfer b src dst amount = some b' := by
  simp only [token_transfer]
  rw [if_neg (by omega), if_neg (by omega)]
  exact ⟨_, rfl⟩

theorem token_transfer_insufficient (b : Balances) (src dst : Address)
    (amount : ℤ) (hb : getBal b src < amount) :
    token_transfer b src dst amount = none := by
  simp only [token_transfer]
  by_cases h0 : amount < 0
  · rw [if_pos h0]
  · rw [if_neg h0, if_pos hb]

/-! ### Claim theorems on the governance path -/

/-- Claim C7: for every stored proposal, `approve_proposal` returns
`ProposalAlreadyExecuted` when `executed = true`, returns `ProposalExpired`
when the ledger timestamp is strictly greater than `deadline` (regardless of
the approval count), and returns `AlreadyApproved` when the caller is
already in the approvers list; in each case the state, and in particular the
proposal record, is unchanged. -/
theorem approve_proposal_error_cases (contract : Address) (now : ℕ)
    (g : GovState) (pid : ℕ) (p : StreamProposal) (approver : Address)
    (hp : g.proposals[pid]? = some p) :
    (p.executed = true →
      approve_proposal contract now g pid approver =
        CallResult.err Error.ProposalAlreadyExecuted ∧
      applyCall g (approve_proposal contract now g pid approver) = g) ∧
    (p.executed = false → p.deadline < now →
      approve_proposal contract now g pid approver =
        CallResult.err Error.ProposalExpired ∧
      applyCall g (approve_proposal contract now g pid approver) = g) ∧
    (p.executed = false → now ≤ p.deadline → approver ∈ p.approvers →
      approve_proposal contract now g pid approver =
        CallResult.err Error.AlreadyApproved ∧
      applyCall g (approve_proposal contract now g pid approver) = g) := by
  refine ⟨fun hex => ?_, fun hex hdl => ?_, fun hex hdl hmem => ?_⟩
  · have h : approve_proposal contract now g pid approver =
        CallResult.err Error.ProposalAlreadyExecuted := by
      simp only [approve_proposal, hp]
      rw [if_pos hex]
    exact ⟨h, by rw [h]; rfl⟩
  · have h : approve_proposal contract now g pid approver =
        CallResult.err Error.ProposalExpired := by
      simp only [approve_proposal, hp]
      rw [if_neg (by simp [hex]), if_pos hdl]
    exact ⟨h, by rw [h]; rfl⟩
  · have h : approve_proposal contract now g pid approver =
        CallResult.err Error.AlreadyApproved := by
      simp only [approve_proposal, hp]
      rw [if_neg (by simp [hex]), if_neg (not_lt.mpr hdl), if_pos hmem]
    exact ⟨h, by rw [h]; rfl⟩

/-- A proposal from sender 1 to receiver 2 over token 3 for amount 50 on
`[0,10)`, with the given approvers, threshold, deadline and executed flag:
concrete input for the governance witnesses. -/
def sample_proposal (approvers : List Address) (required deadline : ℕ)
    (executed : Bool) : StreamProposal :=
  { sender := 1, receiver := 2, token := 3, total_amount := 50,
    start_time := 0, end_time := 10, approvers := approvers,
    required_approvals := required, deadline := deadline, executed := executed }

/-- A governance state holding exactly one proposal and the given balances. -/
def one_proposal_state (p : StreamProposal) (b : Balances) : GovState :=
  { proposals := [p], streams := [], receipts := [], balances := b, events := [] }

/-- Witness for C7: one governance state per error case, all three extracted
by applying the theorem. -/
theorem approve_proposal_error_cases_witness :
    (approve_proposal 0 5 (one_proposal_state (sample_proposal [] 2 9 true) []) 0 4 =
      CallResult.err Error.ProposalAlreadyExecuted) ∧
    (approve_proposal 0 12 (one_proposal_state (sample_proposal [] 2 9 false) []) 0 4 =
      CallResult.err Error.ProposalExpired) ∧
    (approve_proposal 0 5 (one_proposal_state (sample_proposal [4] 2 9 false) []) 0 4 =
      CallResult.err Error.AlreadyApproved) :=
  ⟨((approve_proposal_error_cases 0 5 (one_proposal_state (sample_proposal [] 2 9 true) [])
      0 (sample_proposal [] 2 9 true) 4 rfl).1 rfl).1,
   ((approve_proposal_error_cases 0 12 (one_proposal_state (sample_proposal [] 2 9 false) [])
      0 (sample_proposal [] 2 9 false) 4 rfl).2.1 rfl (by decide)).1,
   ((approve_proposal_error_cases 0 5 (one_proposal_state (sample_proposal [4] 2 9 false) [])
      0 (sample_proposal [4] 2 9 false) 4 rfl).2.2 rfl (by decide) (by decide)).1⟩

/-- Reduction of `approve_proposal` on the path where the new approval meets
the threshold and the proposer can fund the stream: the proposal is stored
executed, the stream is created, the creation event is published and the
receipt minted, and the approval event follows. -/
theorem approve_proposal_executes (contract : Address) (now : ℕ) (g : GovState)
    (pid : ℕ) (p : StreamProposal) (approver : Address)
    (hp : g.proposals[pid]? = some p)
    (hex : p.executed = false)
    (hdl : now ≤ p.deadline)
    (hmem : approver ∉ p.approvers)
    (hth : p.required_approvals ≤ p.approvers.length + 1)
    (h0 : 0 ≤ p.total_amount)
    (hbal : p.total_amount ≤ getBal g.balances p.sender) :
    ∃ b', token_transfer g.balances p.sender contract p.total_amount = some b' ∧
      approve_proposal contract now g pid approver =
        CallResult.ok
          { proposals := g.proposals.set pid
              { p with approvers := p.approvers ++ [approver], executed := true },
            streams := g.streams ++ [proposal_stream p],
            receipts := g.receipts ++
              [{ stream_id := g.streams.length, owner := p.receiver, minted_at := now }],
            balances := b',
            events := (g.events ++
              [GovEvent.streamCreated g.streams.length p.sender p.receiver p.token
                p.total_amount p.start_time p.end_time now]) ++
              [GovEvent.proposalApproved pid approver
                (p.approvers ++ [approver]).length p.required_approvals now] } := by
  obtain ⟨b', hb'⟩ :=
    token_transfer_isSome g.balances p.sender contract p.total_amount h0 hbal
  refine ⟨b', hb', ?_⟩
  simp only [approve_proposal, hp]
  rw [if_neg (by simp [hex]), if_neg (not_lt.mpr hdl), if_neg hmem,
    if_pos (by simpa using hth)]
  simp only [execute_proposal]
  rw [hb']
  rfl

/-- Claim C10: every stream created through proposal execution (an
`approve_proposal` call reaching its threshold) is initialized with
`curve_type = Linear`, `is_soulbound = false`, `withdrawn_amount = 0`,
`is_paused = false`, `paused_time = 0`, `total_paused_duration = 0`,
`cancelled = false` and no `vault_address`. -/
theorem proposal_streams_have_defaults (contract : Address) (now : ℕ)
    (g : GovState) (pid : ℕ) (p : StreamProposal) (approver : Address)
    (hp : g.proposals[pid]? = some p)
    (hex : p.executed = false)
    (hdl : now ≤ p.deadline)
    (hmem : approver ∉ p.approvers)
    (hth : p.required_approvals ≤ p.approvers.length + 1)
    (h0 : 0 ≤ p.total_amount)
    (hbal : p.total_amount ≤ getBal g.balances p.sender) :
    ∃ g' : GovState, approve_proposal contract now g pid approver = CallResult.ok g' ∧
      g'.streams = g.streams ++ [proposal_stream p] ∧
      (proposal_stream p).curve_type = CurveType.Linear ∧
      (proposal_stream p).is_soulbound = false ∧
      (proposal_stream p).withdrawn_amount = 0 ∧
      (proposal_stream p).is_paused = false ∧
      (proposal_stream p).paused_time = 0 ∧
      (proposal_stream p).total_paused_duration = 0 ∧
      (proposal_stream p).cancelled = false ∧
      (proposal_stream p).vault_address = none := by
  obtain ⟨b', hb', happr⟩ :=
    approve_proposal_executes contract now g pid p approver hp hex hdl hmem hth h0 hbal
  exact ⟨_, happr, rfl, rfl, rfl, rfl, rfl, rfl, rfl, rfl, rfl⟩

/-- Witness for C10: a one-approval proposal funded by a proposer holding
balance 100. -/
theorem proposal_streams_have_defaults_witness :
    (one_proposal_state (sample_proposal [] 1 9 false) [(1, 100)]).proposals[0]? =
      some (sample_proposal [] 1 9 false) ∧
    (sample_proposal [] 1 9 false).executed = false ∧
    (5 : ℕ) ≤ (sample_proposal [] 1 9 false).deadline ∧
    (4 : Address) ∉ (sample_proposal [] 1 9 false).approvers ∧
    (sample_proposal [] 1 9 false).required_approvals ≤
      (sample_proposal [] 1 9 false).approvers.length + 1 ∧
    0 ≤ (sample_proposal [] 1 9 false).total_amount ∧
    (sample_proposal [] 1 9 false).total_amount ≤
      getBal (one_proposal_state (sample_proposal [] 1 9 false) [(1, 100)]).balances
        (sample_proposal [] 1 9 false).sender ∧
    (∃ g' : GovState,
      approve_proposal 0 5 (one_proposal_state (sample_proposal [] 1 9 false) [(1, 100)])
          0 4 = CallResult.ok g' ∧
      g'.streams =
        (one_proposal_state (sample_proposal [] 1 9 false) [(1, 100)]).streams ++
          [proposal_stream (sample_proposal [] 1 9 false)] ∧
      (proposal_stream (sample_proposal [] 1 9 false)).curve_type = CurveType.Linear ∧
      (proposal_stream (sample_proposal [] 1 9 false)).is_soulbound = false ∧
      (proposal_stream (sample_proposal [] 1 9 false)).withdrawn_amount = 0 ∧
      (proposal_stream (sample_proposal [] 1 9 false)).is_paused = false ∧
      (proposal_stream (sample_proposal [] 1 9 false)).paused_time = 0 ∧
      (proposal_stream (sample_proposal [] 1 9 false)).total_paused_duration = 0 ∧
      (proposal_stream (sample_proposal [] 1 9 false)).cancelled = false ∧
      (proposal_stream (sample_proposal [] 1 9 false)).vault_address = none) :=
  ⟨rfl, rfl, by decide, by decide, by decide, by decide, by decide,
    proposal_streams_have_defaults 0 5
      (one_proposal_state (sample_proposal [] 1 9 false) [(1, 100)]) 0
      (sample_proposal [] 1 9 false) 4 rfl rfl (by decide) (by decide) (by decide)
      (by decide) (by decide)⟩

/-- Claim C8: for a proposal requiring 2 approvals, the first successful
approval records the approver but leaves `executed = false`, creates no
stream and moves no funds; the second successful approval in the same call
marks the proposal executed, transfers `total_amount` from the original
proposer into contract custody, appends the new `Stream` record, publishes
the creation event and mints the receipt; and if the execution step fails
(the proposer cannot fund the transfer) the whole second call traps, the
ledger keeps the pre-call state, and the stored proposal is still not
executed. -/
theorem two_approval_proposal_execution (contract : Address) (now1 now2 : ℕ)
    (g : GovState) (pid : ℕ) (p : StreamProposal) (a1 a2 : Address)
    (hp : g.proposals[pid]? = some p)
    (hex : p.executed = false)
    (hreq : p.required_approvals = 2)
    (happ : p.approvers = [])
    (hd1 : now1 ≤ p.deadline) (hd2 : now2 ≤ p.deadline)
    (ha : a1 ≠ a2) (hsc : p.sender ≠ contract) :
    approve_proposal contract now1 g pid a1 =
      CallResult.ok
        { g with
            proposals := g.proposals.set pid { p with approvers := [a1] },
            events := g.events ++
              [GovEvent.proposalApproved pid a1 1 p.required_approvals now1] } ∧
    ({ p with approvers := [a1] } : StreamProposal).executed = false ∧
    (0 ≤ p.total_amount → p.total_amount ≤ getBal g.balances p.sender →
      ∃ g2 : GovState,
        approve_proposal contract now2
            { g with
                proposals := g.proposals.set pid { p with approvers := [a1] },
                events := g.events ++
                  [GovEvent.proposalApproved pid a1 1 p.required_approvals now1] }
            pid a2 = CallResult.ok g2 ∧
        g2.proposals[pid]? = some { p with approvers := [a1, a2], executed := true } ∧
        g2.streams = g.streams ++ [proposal_stream p] ∧
        getBal g2.balances contract = getBal g.balances contract + p.total_amount ∧
        getBal g2.balances p.sender = getBal g.balances p.sender - p.total_amount ∧
        GovEvent.streamCreated g.streams.length p.sender p.receiver p.token
            p.total_amount p.start_time p.end_time now2 ∈ g2.events ∧
        ({ stream_id := g.streams.length, owner := p.receiver,
            minted_at := now2 } : StreamReceipt) ∈ g2.receipts) ∧
    (getBal g.balances p.sender < p.total_amount →
      approve_proposal contract now2
          { g with
              proposals := g.proposals.set pid { p with approvers := [a1] },
              events := g.events ++
                [GovEvent.proposalApproved pid a1 1 p.required_approvals now1] }
          pid a2 = CallResult.fault ∧
      applyCall
          { g with
              proposals := g.proposals.set pid { p with approvers := [a1] },
              events := g.events ++
                [GovEvent.proposalApproved pid a1 1 p.required_approvals now1] }
          (approve_proposal contract now2
            { g with
                proposals := g.proposals.set pid { p with approvers := [a1] },
                events := g.events ++
                  [GovEvent.proposalApproved pid a1 1 p.required_approvals now1] }
            pid a2) =
        { g with
            proposals := g.proposals.set pid { p with approvers := [a1] },
            events := g.events ++
              [GovEvent.proposalApproved pid a1 1 p.required_approvals now1] } ∧
      ({ g with
          proposals := g.proposals.set pid { p with approvers := [a1] },
          events := g.events ++
            [GovEvent.proposalApproved pid a1 1 p.required_approvals now1] } :
          GovState).proposals[pid]? = some { p with approvers := [a1] }) := by
  obtain ⟨hlen, -⟩ := List.getElem?_eq_some_iff.mp hp
  have hp1 : ({ g with
      proposals := g.proposals.set pid { p with approvers := [a1] },
      events := g.events ++
        [GovEvent.proposalApproved pid a1 1 p.required_approvals now1] } :
      GovState).proposals[pid]? = some { p with approvers := [a1] } :=
    List.getElem?_set_self hlen
  refine ⟨?_, hex, ?_, ?_⟩
  · simp only [approve_proposal, hp]
    rw [if_neg (by simp [hex]), if_neg (not_lt.mpr hd1), if_neg (by simp [happ]),
      if_neg (by simp [happ, hreq])]
    simp [happ]
  · intro h0 hbal
    obtain ⟨b', hb', happr⟩ :=
      approve_proposal_executes contract now2
        { g with
            proposals := g.proposals.set pid { p with approvers := [a1] },
            events := g.events ++
              [GovEvent.proposalApproved pid a1 1 p.required_approvals now1] }
        pid { p with approvers := [a1] } a2 hp1 hex hd2
        (by simp [Ne.symm ha]) (by simp [hreq]) h0 hbal
    have hb2 : b' =
        setBal (setBal g.balances p.sender (getBal g.balances p.sender - p.total_amount))
          contract (getBal g.balances contract + p.total_amount) := by
      have hspec := token_transfer_spec g.balances p.sender contract p.total_amount
        h0 hbal hsc
      have : (some b' : Option Balances) = some (setBal
          (setBal g.balances p.sender (getBal g.balances p.sender - p.total_amount))
          contract (getBal g.balances contract + p.total_amount)) := by
        rw [← hb']
        exact hspec
      exact Option.some.inj this
    refine ⟨_, happr, ?_, rfl, ?_, ?_, ?_, ?_⟩
    · have hlen1 : pid < (g.proposals.set pid
          { p with approvers := [a1] }).length := by
        rw [List.length_set]
        exact hlen
      exact List.getElem?_set_self hlen1
    · show getBal b' contract = getBal g.balances contract + p.total_amount
      rw [hb2]
      exact getBal_setBal_same _ _ _
    · show getBal b' p.sender = getBal g.balances p.sender - p.total_amount
      rw [hb2, getBal_setBal_other _ _ _ _ (Ne.symm hsc)]
      exact getBal_setBal_same _ _ _
    · simp
    · simp
  · intro hpoor
    have hfault : approve_proposal contract now2
        { g with
            proposals := g.proposals.set pid { p with approvers := [a1] },
            events := g.events ++
              [GovEvent.proposalApproved pid a1 1 p.required_approvals now1] }
        pid a2 = CallResult.fault := by
      simp only [approve_proposal, hp1]
      rw [if_neg (by simp [hex]), if_neg (not_lt.mpr hd2),
        if_neg (by simp [Ne.symm ha]), if_pos (by simp [hreq])]
      simp only [execute_proposal]
      rw [token_transfer_insufficient g.balances p.sender contract p.total_amount hpoor]
    exact ⟨hfault, by rw [hfault]; rfl, hp1⟩

/-- The stored state after the first approval (by approver 4 at time 5) of a
two-approval `sample_proposal`, with the proposer holding balance `bal`. -/
def c8_after_first (bal : ℤ) : GovState :=
  { proposals := [{ sample_proposal [] 2 9 false with approvers := [4] }],
    streams := [], receipts := [], balances := [(1, bal)],
    events := [GovEvent.proposalApproved 0 4 1 2 5] }

/-- Witness for C8: the funded run (proposer balance 100) and the unfunded
run (proposer balance 10, short of the 50 required). -/
theorem two_approval_proposal_execution_witness :
    (4 : Address) ≠ 5 ∧
    (sample_proposal [] 2 9 false).sender ≠ 0 ∧
    (0 : ℤ) ≤ 50 ∧ (50 : ℤ) ≤ getBal [(1, 100)] 1 ∧ getBal [(1, 10)] 1 < 50 ∧
    (approve_proposal 0 5 (one_proposal_state (sample_proposal [] 2 9 false) [(1, 100)])
        0 4 = CallResult.ok (c8_after_first 100)) ∧
    (∃ g2 : GovState,
      approve_proposal 0 6 (c8_after_first 100) 0 5 = CallResult.ok g2 ∧
      g2.proposals[0]? =
        some { sample_proposal [] 2 9 false with approvers := [4, 5], executed := true } ∧
      g2.streams = [] ++ [proposal_stream (sample_proposal [] 2 9 false)] ∧
      getBal g2.balances 0 = getBal [(1, 100)] 0 + 50 ∧
      getBal g2.balances 1 = getBal [(1, 100)] 1 - 50 ∧
      GovEvent.streamCreated 0 1 2 3 50 0 10 6 ∈ g2.events ∧
      ({ stream_id := 0, owner := 2, minted_at := 6 } : StreamReceipt) ∈ g2.receipts) ∧
    (approve_proposal 0 6 (c8_after_first 10) 0 5 = CallResult.fault ∧
      applyCall (c8_after_first 10) (approve_proposal 0 6 (c8_after_first 10) 0 5) =
        c8_after_first 10 ∧
      (c8_after_first 10).proposals[0]? =
        some { sample_proposal [] 2 9 false with approvers := [4] }) :=
  ⟨by decide, by decide, by decide, by decide, by decide,
   (two_approval_proposal_execution 0 5 6
      (one_proposal_state (sample_proposal [] 2 9 false) [(1, 100)]) 0
      (sample_proposal [] 2 9 false) 4 5 rfl rfl rfl rfl (by decide) (by decide)
      (by decide) (by decide)).1,
   (two_approval_proposal_execution 0 5 6
      (one_proposal_state (sample_proposal [] 2 9 false) [(1, 100)]) 0
      (sample_proposal [] 2 9 false) 4 5 rfl rfl rfl rfl (by decide) (by decide)
      (by decide) (by decide)).2.2.1 (by decide) (by decide),
   (two_approval_proposal_execution 0 5 6
      (one_proposal_state (sample_proposal [] 2 9 false) [(1, 10)]) 0
      (sample_proposal [] 2 9 false) 4 5 rfl rfl rfl rfl (by decide) (by decide)
      (by decide) (by decide)).2.2.2 (by decide)⟩

end StellarStream
